import Mathlib

/-!
Shallow embedding of the Submariner operator's globalnet registry
(`CreateGlobalnetConfigMap`, `NewGlobalnetConfigMap`, `UpdateGlobalnetConfigMap`
in package `broker`) and of the deployment validator
(`validateSubmarinerDeployment`, `checkOverlappingCIDRs` in package `cmd`),
together with proofs of the specification claims about them.
-/

namespace Submariner

/-- Embeds the Go struct `ClusterInfo` (`cluster_id`, `global_cidr`). -/
structure ClusterInfo where
  clusterID : String
  globalCidr : List String
deriving DecidableEq, Repr

/-- The merge performed by `UpdateGlobalnetConfigMap` on the decoded
`clusterinfo` list: the loop replaces `GlobalCidr` in place for every entry
whose `ClusterID` matches (setting `exists`), and appends a fresh entry when
no match was found. -/
def upsert (clusterInfo : List ClusterInfo) (newCluster : ClusterInfo) : List ClusterInfo :=
  let updated := clusterInfo.map fun e =>
    if e.clusterID = newCluster.clusterID then
      { e with globalCidr := newCluster.globalCidr }
    else e
  if clusterInfo.any fun e => e.clusterID == newCluster.clusterID then
    updated
  else
    updated ++ [{ clusterID := newCluster.clusterID, globalCidr := newCluster.globalCidr }]

/-- The per-entry replacement function applied by the `upsert` loop. -/
def replEntry (newCluster : ClusterInfo) (e : ClusterInfo) : ClusterInfo :=
  if e.clusterID = newCluster.clusterID then
    { e with globalCidr := newCluster.globalCidr }
  else e

lemma upsert_eq (l : List ClusterInfo) (c : ClusterInfo) :
    upsert l c =
      if l.any fun e => e.clusterID == c.clusterID then
        l.map (replEntry c)
      else
        l.map (replEntry c) ++ [{ clusterID := c.clusterID, globalCidr := c.globalCidr }] :=
  rfl

lemma replEntry_of_ne (c : ClusterInfo) (e : ClusterInfo) (h : e.clusterID ≠ c.clusterID) :
    replEntry c e = e := by
  simp [replEntry, h]

lemma replEntry_clusterID (c e : ClusterInfo) : (replEntry c e).clusterID = e.clusterID := by
  unfold replEntry
  split <;> rfl

lemma replEntry_idem (c e : ClusterInfo) : replEntry c (replEntry c e) = replEntry c e := by
  unfold replEntry
  split <;> simp_all

lemma map_replEntry_of_not_any (l : List ClusterInfo) (c : ClusterInfo)
    (h : (l.any fun e => e.clusterID == c.clusterID) = false) :
    l.map (replEntry c) = l := by
  induction l with
  | nil => rfl
  | cons x xs ih =>
    simp only [List.any_cons, Bool.or_eq_false_iff, beq_eq_false_iff_ne] at h
    simp [replEntry_of_ne c x h.1, ih h.2]

/-- After an upsert, an entry with the new cluster's id is always present. -/
lemma upsert_any (l : List ClusterInfo) (c : ClusterInfo) :
    ((upsert l c).any fun e => e.clusterID == c.clusterID) = true := by
  rw [upsert_eq]
  split
  · rename_i h
    rw [List.any_map]
    rw [List.any_eq_true] at h ⊢
    obtain ⟨e, he, hid⟩ := h
    exact ⟨e, he, by simp [Function.comp, replEntry_clusterID, beq_iff_eq] at hid ⊢; simpa using hid⟩
  · simp

lemma upsert_of_forall_ne (l : List ClusterInfo) (c : ClusterInfo)
    (h : ∀ x ∈ l, x.clusterID ≠ c.clusterID) :
    upsert l c = l ++ [{ clusterID := c.clusterID, globalCidr := c.globalCidr }] := by
  have hany : (l.any fun e => e.clusterID == c.clusterID) = false := by
    rw [List.any_eq_false]
    intro x hx
    simpa using h x hx
  rw [upsert_eq, hany]
  simp [map_replEntry_of_not_any l c hany]

/-- C3: upsert leaves entries with a different clusterID unchanged at their
position, replaces a matching entry's CIDR list in place, and otherwise
appends the new entry at the end, preserving first-seen order. -/
theorem upsert_preserves_entries :
    (∀ (l : List ClusterInfo) (c : ClusterInfo) (i : Nat) (x : ClusterInfo),
      l[i]? = some x → x.clusterID ≠ c.clusterID → (upsert l c)[i]? = some x)
    ∧ (∀ (l : List ClusterInfo) (c : ClusterInfo) (i : Nat) (x : ClusterInfo),
      l[i]? = some x → x.clusterID = c.clusterID →
        (upsert l c)[i]? = some { clusterID := x.clusterID, globalCidr := c.globalCidr })
    ∧ (∀ (l : List ClusterInfo) (c : ClusterInfo),
      (∀ x ∈ l, x.clusterID ≠ c.clusterID) →
        upsert l c = l ++ [{ clusterID := c.clusterID, globalCidr := c.globalCidr }]) := by
  have hmap : ∀ (l : List ClusterInfo) (c : ClusterInfo) (i : Nat) (x : ClusterInfo),
      l[i]? = some x → (upsert l c)[i]? = some (replEntry c x) := by
    intro l c i x hx
    have hi : i < l.length := by
      by_contra hge
      rw [List.getElem?_eq_none (Nat.le_of_not_lt hge)] at hx
      exact Option.noConfusion hx
    have hmapped : (l.map (replEntry c))[i]? = some (replEntry c x) := by
      rw [List.getElem?_map, hx]
      rfl
    rw [upsert_eq]
    split
    · exact hmapped
    · rw [List.getElem?_append_left (by simpa using hi)]
      exact hmapped
  refine ⟨?_, ?_, upsert_of_forall_ne⟩
  · intro l c i x hx hne
    have := hmap l c i x hx
    rwa [replEntry_of_ne c x hne] at this
  · intro l c i x hx heq
    have := hmap l c i x hx
    rwa [replEntry, if_pos heq] at this

/-- Witness for C3 at a concrete registry: allocations [A, B] plus an upsert
of C yield [A, B, C], with A and B intact at their positions. -/
theorem upsert_preserves_entries_witness :
    (upsert [⟨"A", ["1.0.0.0/8"]⟩, ⟨"B", ["2.0.0.0/8"]⟩] ⟨"C", ["3.0.0.0/8"]⟩
      = [⟨"A", ["1.0.0.0/8"]⟩, ⟨"B", ["2.0.0.0/8"]⟩, ⟨"C", ["3.0.0.0/8"]⟩])
    ∧ (upsert [⟨"A", ["1.0.0.0/8"]⟩, ⟨"B", ["2.0.0.0/8"]⟩] ⟨"C", ["3.0.0.0/8"]⟩)[0]?
        = some ⟨"A", ["1.0.0.0/8"]⟩
    ∧ (upsert [⟨"A", ["1.0.0.0/8"]⟩, ⟨"B", ["2.0.0.0/8"]⟩] ⟨"B", ["9.0.0.0/8"]⟩)[1]?
        = some ⟨"B", ["9.0.0.0/8"]⟩ :=
  ⟨upsert_preserves_entries.2.2 _ _ (by decide),
   upsert_preserves_entries.1 _ _ 0 _ (by decide) (by decide),
   upsert_preserves_entries.2.1 _ _ 1 ⟨"B", ["2.0.0.0/8"]⟩ (by decide) (by decide)⟩

/-- C4: upsert is idempotent — applying it a second time with identical
arguments yields an identical allocations list. -/
theorem upsert_idempotent (l : List ClusterInfo) (c : ClusterInfo) :
    upsert (upsert l c) c = upsert l c := by
  rw [upsert_eq (upsert l c) c, if_pos (upsert_any l c), upsert_eq l c]
  split
  · rw [List.map_map]
    exact List.map_congr_left fun x _ => replEntry_idem c x
  · rename_i hany
    have hl : l.map (replEntry c) = l :=
      map_replEntry_of_not_any l c (by simpa using hany)
    rw [hl, List.map_append, hl]
    simp [replEntry]

/-- C5: clusterID uniqueness is preserved by upsert — if the allocations list
has pairwise-distinct clusterIDs, so does the upserted list. -/
theorem upsert_preserves_uniqueness (l : List ClusterInfo) (c : ClusterInfo)
    (h : (l.map ClusterInfo.clusterID).Nodup) :
    ((upsert l c).map ClusterInfo.clusterID).Nodup := by
  rw [upsert_eq]
  split
  · rwa [List.map_map, show (ClusterInfo.clusterID ∘ replEntry c) = ClusterInfo.clusterID from
      funext fun e => replEntry_clusterID c e]
  · rename_i hany
    have hl : l.map (replEntry c) = l :=
      map_replEntry_of_not_any l c (by simpa using hany)
    rw [hl, List.map_append]
    have hnotin : c.clusterID ∉ l.map ClusterInfo.clusterID := by
      rw [Bool.not_eq_true, List.any_eq_false] at hany
      intro hmem
      obtain ⟨x, hx, hid⟩ := List.mem_map.mp hmem
      have := hany x hx
      exact this (by simpa using hid)
    simp [List.nodup_append, h, hnotin]

/-- Witness for C5 at a concrete registry with distinct clusterIDs. -/
theorem upsert_preserves_uniqueness_witness :
    ((upsert [⟨"A", ["1.0.0.0/8"]⟩, ⟨"B", ["2.0.0.0/8"]⟩] ⟨"C", ["3.0.0.0/8"]⟩).map
      ClusterInfo.clusterID).Nodup :=
  upsert_preserves_uniqueness _ _ (by decide)

/-- Modelled from the spec: a parsed CIDR prefix as produced by the external
cidr package (not part of this repository) — an address width (32 for IPv4,
128 for IPv6), the parsed address, and the prefix length. -/
structure Cidr where
  width : Nat
  addr : Nat
  plen : Nat
deriving DecidableEq, Repr

/-- Number of addresses covered by the prefix. -/
def Cidr.blockSize (c : Cidr) : Nat := 2 ^ (c.width - c.plen)

/-- The network (base) address: the parsed address with host bits cleared. -/
def Cidr.network (c : Cidr) : Nat := c.addr - c.addr % c.blockSize

/-- Whether address `x` lies in the prefix's address range. -/
def Cidr.containsAddr (c : Cidr) (x : Nat) : Bool :=
  decide (c.network ≤ x) && decide (x < c.network + c.blockSize)

/-- Modelled from the spec: the intersection test — one prefix's network
address falls within the other's range. -/
def cidrOverlap (a b : Cidr) : Bool :=
  a.containsAddr b.network || b.containsAddr a.network

/-- A well-formed prefix: length within width, address within width. -/
def Cidr.WF (c : Cidr) : Prop := c.plen ≤ c.width ∧ c.addr < 2 ^ c.width

lemma Cidr.blockSize_pos (c : Cidr) : 0 < c.blockSize :=
  Nat.pos_pow_of_pos _ (by norm_num)

lemma Cidr.containsAddr_iff (c : Cidr) (x : Nat) :
    c.containsAddr x = true ↔ c.network ≤ x ∧ x < c.network + c.blockSize := by
  simp [Cidr.containsAddr]

lemma Cidr.network_mod (c : Cidr) : c.network % c.blockSize = 0 := by
  have h := Nat.div_add_mod c.addr c.blockSize
  have : c.network = c.blockSize * (c.addr / c.blockSize) := by
    unfold Cidr.network
    omega
  rw [this]
  exact Nat.mul_mod_right _ _

lemma Cidr.containsAddr_network (c : Cidr) : c.containsAddr c.network = true :=
  (Cidr.containsAddr_iff c c.network).mpr
    ⟨le_refl _, Nat.lt_add_of_pos_right c.blockSize_pos⟩

/-- An aligned block containing `x` has its base at `x` minus its remainder. -/
lemma aligned_block_base (n s x : Nat) (_hs : 0 < s) (hn : n % s = 0)
    (h1 : n ≤ x) (h2 : x < n + s) : n = x - x % s := by
  obtain ⟨k, rfl⟩ := Nat.dvd_of_mod_eq_zero hn
  have hx : x = (x - s * k) + s * k := by omega
  have hmod : x % s = x - s * k := by
    conv_lhs => rw [hx]
    rw [Nat.add_mul_mod_self_left]
    exact Nat.mod_eq_of_lt (by omega)
  omega

/-- If `x` lies in both of two aligned power-of-two blocks and the first
block is no larger, the first block's base lies in the second block. -/
lemma aligned_base_mem (a b : Cidr) (x : Nat)
    (hd : a.blockSize ∣ b.blockSize)
    (hax : a.containsAddr x = true) (hbx : b.containsAddr x = true) :
    b.containsAddr a.network = true := by
  rw [Cidr.containsAddr_iff] at hax hbx ⊢
  have hna : a.network = x - x % a.blockSize :=
    aligned_block_base _ _ _ a.blockSize_pos a.network_mod hax.1 hax.2
  have hnb : b.network = x - x % b.blockSize :=
    aligned_block_base _ _ _ b.blockSize_pos b.network_mod hbx.1 hbx.2
  have hmod : x % a.blockSize ≤ x % b.blockSize := by
    rw [← Nat.mod_mod_of_dvd x hd]
    exact Nat.mod_le _ _
  constructor
  · omega
  · have : a.network ≤ x := hax.1
    omega

/-- The sizes of two power-of-two blocks are comparable by divisibility. -/
lemma blockSize_dvd_or (a b : Cidr) :
    a.blockSize ∣ b.blockSize ∨ b.blockSize ∣ a.blockSize := by
  unfold Cidr.blockSize
  rcases Nat.le_total (a.width - a.plen) (b.width - b.plen) with h | h
  · exact Or.inl (pow_dvd_pow 2 h)
  · exact Or.inr (pow_dvd_pow 2 h)

/-- Modelled from the spec: splitting a character list at a separator, as
used to parse dotted-quad and prefix-length notation. -/
def splitChars (sep : Char) : List Char → List (List Char)
  | [] => [[]]
  | c :: rest =>
    match splitChars sep rest with
    | [] => if c = sep then [[], []] else [[c]]
    | h :: t => if c = sep then [] :: h :: t else (c :: h) :: t

/-- Modelled from the spec: a nonempty all-digit character list read as a
decimal number. -/
def decDigits (cs : List Char) : Option Nat :=
  if cs.isEmpty then none
  else if cs.all Char.isDigit then
    some (cs.foldl (fun acc c => acc * 10 + (c.toNat - 48)) 0)
  else none

/-- Modelled from the spec: a dotted-quad IPv4 address read as a 32-bit
number; each octet must be at most 255. -/
def parseIPv4 (cs : List Char) : Option Nat :=
  match (splitChars '.' cs).mapM decDigits with
  | some [a, b, c, d] =>
    if a ≤ 255 && b ≤ 255 && c ≤ 255 && d ≤ 255 then
      some (((a * 256 + b) * 256 + c) * 256 + d)
    else none
  | _ => none

/-- Modelled from the spec: parsing a CIDR string (IPv4 dotted-quad form),
as the external cidr package does with net.ParseCIDR; returns none for a
syntactically invalid prefix. -/
def parseCIDR (s : String) : Option Cidr :=
  match splitChars '/' s.data with
  | [ip, lenPart] =>
    match parseIPv4 ip, decDigits lenPart with
    | some addr, some n => if n ≤ 32 then some ⟨32, addr, n⟩ else none
    | _, _ => none
  | _ => none

/-- Modelled from the spec: the inner loop of the external cidr package's
intersection test over the source subnet list. -/
def isOverlappingList (newNet : Cidr) : List String → Except String Bool
  | [] => Except.ok false
  | v :: rest =>
    match parseCIDR v with
    | none => Except.error ("invalid CIDR address: " ++ v)
    | some baseNet =>
      if cidrOverlap baseNet newNet then Except.ok true
      else isOverlappingList newNet rest

/-- Modelled from the spec: the external cidr package's IsOverlapping — parse
the candidate CIDR, then test it against each CIDR of the list, erroring on
any parse failure encountered. -/
def isOverlapping (cidrList : List String) (c : String) : Except String Bool :=
  match parseCIDR c with
  | none => Except.error ("invalid CIDR address: " ++ c)
  | some newNet => isOverlappingList newNet cidrList

/-- C8: the intersection test reports an overlap iff the two address ranges
share at least one address, for prefixes of the same family regardless of
prefix lengths; concretely 10.0.0.0/24 vs 10.1.0.0/24 do not overlap while
10.0.0.0/16 vs 10.0.1.0/24 do. -/
theorem cidrOverlap_iff_shared_address :
    (∀ a b : Cidr, a.width = b.width → a.WF → b.WF →
      (cidrOverlap a b = true ↔
        ∃ x, a.containsAddr x = true ∧ b.containsAddr x = true))
    ∧ isOverlapping ["10.0.0.0/24"] "10.1.0.0/24" = Except.ok false
    ∧ isOverlapping ["10.0.0.0/16"] "10.0.1.0/24" = Except.ok true := by
  refine ⟨?_, rfl, rfl⟩
  intro a b _ _ _
  constructor
  · intro h
    rcases Bool.or_eq_true_iff.mp h with h' | h'
    · exact ⟨b.network, h', b.containsAddr_network⟩
    · exact ⟨a.network, a.containsAddr_network, h'⟩
  · rintro ⟨x, hax, hbx⟩
    unfold cidrOverlap
    rcases blockSize_dvd_or a b with hd | hd
    · rw [aligned_base_mem a b x hd hax hbx]
      simp
    · rw [aligned_base_mem b a x hd hbx hax]
      simp

/-- Witness for C8: evaluating the quantified part at the concrete contained
pair 10.0.0.0/16 and 10.0.1.0/24 yields a shared address. -/
theorem cidrOverlap_iff_shared_address_witness :
    ∃ x, (Cidr.mk 32 167772160 16).containsAddr x = true
      ∧ (Cidr.mk 32 167772416 24).containsAddr x = true :=
  (cidrOverlap_iff_shared_address.1 ⟨32, 167772160, 16⟩ ⟨32, 167772416, 24⟩
    rfl (by constructor <;> norm_num [Cidr.WF]) (by constructor <;> norm_num [Cidr.WF])).mp
    (by decide)

/-- Embeds a Submariner endpoint as used by `checkOverlappingCIDRs`:
object name, `Spec.ClusterID` and `Spec.Subnets`. -/
structure Endpoint where
  name : String
  clusterID : String
  subnets : List String
deriving DecidableEq, Repr

/-- The issues queued by `checkOverlappingCIDRs`, keeping the data each
`fmt.Sprintf` message carries. -/
inductive Issue where
  | duplicateCluster (srcName destName clusterID : String)
  | overlap (subnet destCluster srcCluster : String) (srcSubnets : List String)
  | parseError (destCluster err : String)
deriving DecidableEq, Repr

/-- The issues queued for one subnet of `dest` against all of `source`'s
subnets (the inner loop body of `checkOverlappingCIDRs`). -/
def subnetIssues (source dest : Endpoint) (subnet : String) : List Issue :=
  match isOverlapping source.subnets subnet with
  | Except.error e => [Issue.parseError dest.clusterID e]
  | Except.ok true => [Issue.overlap subnet dest.clusterID source.clusterID source.subnets]
  | Except.ok false => []

/-- The issues queued for one ordered pair (source before dest in the list):
a duplicate-cluster issue when the cluster IDs coincide, otherwise the
per-subnet issues for every subnet of dest. -/
def pairIssues (source dest : Endpoint) : List Issue :=
  if source.clusterID = dest.clusterID then
    [Issue.duplicateCluster source.name dest.name source.clusterID]
  else
    dest.subnets.flatMap (subnetIssues source dest)

/-- The full double loop of `checkOverlappingCIDRs`: for each index i, pair
the i-th endpoint with every later endpoint. -/
def allPairIssues : List Endpoint → List Issue
  | [] => []
  | source :: rest => rest.flatMap (pairIssues source) ++ allPairIssues rest

/-- The result of `checkOverlappingCIDRs` once the endpoint list was
obtained: true iff no failure message was queued. -/
def overlapCheckResult (endpoints : List Endpoint) : Bool :=
  (allPairIssues endpoints).isEmpty

/-- The ordered pairs the detector's double loop visits, in visit order. -/
def pairsOf {α : Type} : List α → List (α × α)
  | [] => []
  | x :: rest => rest.map (fun y => (x, y)) ++ pairsOf rest

lemma allPairIssues_eq_pairsOf_bind (l : List Endpoint) :
    allPairIssues l = (pairsOf l).flatMap fun p => pairIssues p.1 p.2 := by
  induction l with
  | nil => rfl
  | cons x rest ih =>
    simp only [allPairIssues, pairsOf, List.flatMap_append, ih, List.flatMap_map]

lemma mem_pairsOf {α : Type} (a b : α) (l : List α) :
    (a, b) ∈ pairsOf l → a ∈ l ∧ b ∈ l := by
  induction l with
  | nil => simp [pairsOf]
  | cons x rest ih =>
    intro h
    rw [pairsOf, List.mem_append] at h
    rcases h with h | h
    · obtain ⟨y, hy, heq⟩ := List.mem_map.mp h
      obtain ⟨rfl, rfl⟩ := Prod.mk.injEq .. ▸ And.intro (congrArg Prod.fst heq) (congrArg Prod.snd heq)
      exact ⟨List.mem_cons_self _ _, List.mem_cons_of_mem _ hy⟩
    · exact ⟨List.mem_cons_of_mem _ (ih h).1, List.mem_cons_of_mem _ (ih h).2⟩

lemma pairsOf_length {α : Type} (l : List α) :
    (pairsOf l).length = Nat.choose l.length 2 := by
  induction l with
  | nil => simp [pairsOf]
  | cons x rest ih =>
    simp only [pairsOf, List.length_append, List.length_map, ih, List.length_cons]
    rw [Nat.choose_succ_succ, Nat.choose_one_right]

lemma pairsOf_nodup {α : Type} (l : List α) (h : l.Nodup) : (pairsOf l).Nodup := by
  induction l with
  | nil => exact List.nodup_nil
  | cons x rest ih =>
    rw [pairsOf]
    rcases List.nodup_cons.mp h with ⟨hx, hrest⟩
    refine List.Nodup.append ?_ (ih hrest) ?_
    · exact hrest.map fun a b hab => (Prod.mk.injEq .. ▸ hab).2
    · intro p hp1 hp2
      obtain ⟨y, _, rfl⟩ := List.mem_map.mp hp1
      exact hx ((mem_pairsOf _ _ _ hp2).1)

lemma pairsOf_asymm {α : Type} (l : List α) (h : l.Nodup) (a b : α) :
    (a, b) ∈ pairsOf l → (b, a) ∉ pairsOf l := by
  induction l with
  | nil => simp [pairsOf]
  | cons x rest ih =>
    intro hab hba
    rcases List.nodup_cons.mp h with ⟨hx, hrest⟩
    rw [pairsOf, List.mem_append] at hab hba
    rcases hab with hab | hab <;> rcases hba with hba | hba
    · obtain ⟨y, hy, heq⟩ := List.mem_map.mp hab
      obtain ⟨z, hz, heq'⟩ := List.mem_map.mp hba
      have ha : a = x := (Prod.mk.injEq .. ▸ heq).1.symm
      have hb : b = x := (Prod.mk.injEq .. ▸ heq').1.symm
      have : b ∈ rest := by
        have := (Prod.mk.injEq .. ▸ heq).2
        exact this ▸ hy
      exact hx (hb ▸ this)
    · obtain ⟨y, hy, heq⟩ := List.mem_map.mp hab
      have hb : b ∈ rest := by
        have := (Prod.mk.injEq .. ▸ heq).2
        exact this ▸ hy
      have ha : a = x := (Prod.mk.injEq .. ▸ heq).1.symm
      exact hx (ha ▸ (mem_pairsOf b a rest hba).2)
    · obtain ⟨z, hz, heq'⟩ := List.mem_map.mp hba
      have ha : a ∈ rest := by
        have := (Prod.mk.injEq .. ▸ heq').2
        exact this ▸ hz
      have hb : b = x := (Prod.mk.injEq .. ▸ heq').1.symm
      exact hx (hb ▸ (mem_pairsOf a b rest hab).2)
    · exact ih hrest hab hba

lemma cidrOverlap_comm (a b : Cidr) : cidrOverlap a b = cidrOverlap b a :=
  Bool.or_comm _ _

/-- Whether some CIDR of the list parses and overlaps the given prefix. -/
def overlapsSome (n : Cidr) (l : List String) : Bool :=
  l.any fun s =>
    match parseCIDR s with
    | some b => cidrOverlap b n
    | none => false

lemma isOverlappingList_of_valid (n : Cidr) (l : List String)
    (h : ∀ s ∈ l, (parseCIDR s).isSome) :
    isOverlappingList n l = Except.ok (overlapsSome n l) := by
  induction l with
  | nil => rfl
  | cons v rest ih =>
    have hv := h v (List.mem_cons_self _ _)
    obtain ⟨b, hb⟩ := Option.isSome_iff_exists.mp hv
    rw [isOverlappingList, hb]
    dsimp only
    have hrest : isOverlappingList n rest = Except.ok (overlapsSome n rest) :=
      ih fun s hs => h s (List.mem_cons_of_mem _ hs)
    by_cases hov : cidrOverlap b n = true
    · simp [hov, overlapsSome, List.any_cons, hb]
    · rw [if_neg hov, hrest]
      simp only [overlapsSome, List.any_cons, hb]
      rw [Bool.eq_false_iff.mpr hov]
      simp [overlapsSome]

lemma subnetIssues_nil_iff (source dest : Endpoint) (s : String)
    (hs : (parseCIDR s).isSome) (hsrc : ∀ t ∈ source.subnets, (parseCIDR t).isSome) :
    subnetIssues source dest s = [] ↔ overlapsSome (Option.get _ hs) source.subnets = false := by
  obtain ⟨n, hn⟩ := Option.isSome_iff_exists.mp hs
  have hget : Option.get _ hs = n := by
    simp [hn]
  rw [hget]
  unfold subnetIssues isOverlapping
  rw [hn]
  dsimp only
  rw [isOverlappingList_of_valid n source.subnets hsrc]
  by_cases hov : overlapsSome n source.subnets = true
  · simp [hov]
  · rw [Bool.not_eq_true] at hov
    simp [hov]

lemma overlapsSome_false_iff (n : Cidr) (l : List String)
    (h : ∀ s ∈ l, (parseCIDR s).isSome) :
    overlapsSome n l = false ↔
      ∀ t ∈ l, ∀ ct, parseCIDR t = some ct → cidrOverlap ct n = false := by
  unfold overlapsSome
  rw [List.any_eq_false]
  constructor
  · intro hall t ht ct hct
    have := hall t ht
    rw [hct] at this
    simpa using this
  · intro hall t ht
    obtain ⟨ct, hct⟩ := Option.isSome_iff_exists.mp (h t ht)
    rw [hct]
    simp [hall t ht ct hct]

lemma pairIssues_nil_iff (A B : Endpoint) (hne : A.clusterID ≠ B.clusterID)
    (hA : ∀ s ∈ A.subnets, (parseCIDR s).isSome)
    (hB : ∀ s ∈ B.subnets, (parseCIDR s).isSome) :
    pairIssues A B = [] ↔
      ∀ s ∈ B.subnets, ∀ cs, parseCIDR s = some cs →
        ∀ t ∈ A.subnets, ∀ ct, parseCIDR t = some ct → cidrOverlap ct cs = false := by
  rw [pairIssues, if_neg hne, List.flatMap_eq_nil_iff]
  constructor
  · intro hall s hsmem cs hcs t htmem ct hct
    have hsome : (parseCIDR s).isSome := hB s hsmem
    have h1 := (subnetIssues_nil_iff A B s hsome hA).mp (hall s hsmem)
    have hget : Option.get _ hsome = cs := by simp [hcs]
    rw [hget] at h1
    exact (overlapsSome_false_iff cs A.subnets hA).mp h1 t htmem ct hct
  · intro hall s hsmem
    have hsome : (parseCIDR s).isSome := hB s hsmem
    obtain ⟨cs, hcs⟩ := Option.isSome_iff_exists.mp hsome
    rw [subnetIssues_nil_iff A B s hsome hA]
    have hget : Option.get _ hsome = cs := by simp [hcs]
    rw [hget, overlapsSome_false_iff cs A.subnets hA]
    intro t htmem ct hct
    exact hall s hsmem cs hcs t htmem ct hct

/-- C2 counterexample: swapping two duplicate-cluster endpoints changes the
set of issues — the issue names the endpoints in list order. -/
theorem detector_issue_set_not_symmetric :
    Issue.duplicateCluster "a" "b" "X"
        ∈ allPairIssues [⟨"a", "X", []⟩, ⟨"b", "X", []⟩]
    ∧ Issue.duplicateCluster "a" "b" "X"
        ∉ allPairIssues [⟨"b", "X", []⟩, ⟨"a", "X", []⟩] := by
  constructor
  · rw [show allPairIssues [⟨"a", "X", []⟩, ⟨"b", "X", []⟩]
        = [Issue.duplicateCluster "a" "b" "X"] from rfl]
    exact List.mem_singleton.mpr rfl
  · rw [show allPairIssues [⟨"b", "X", []⟩, ⟨"a", "X", []⟩]
        = [Issue.duplicateCluster "b" "a" "X"] from rfl]
    intro hmem
    have := List.mem_singleton.mp hmem
    simp at this

/-- C2 amended: each unordered pair of positions is evaluated exactly once —
the accumulated issues are the concatenation of the per-pair issues over the
n-choose-2 visited pairs, each visited once even with repeated clusterIDs —
and for endpoints whose subnets all parse, whether a pair yields any issue
is order-independent (the issue contents themselves are not). -/
theorem detector_pairs_once_and_result_symmetric :
    (∀ l : List Endpoint,
      allPairIssues l = (pairsOf l).flatMap fun p => pairIssues p.1 p.2)
    ∧ (∀ l : List Endpoint, (pairsOf l).length = Nat.choose l.length 2)
    ∧ (∀ l : List Endpoint, l.Nodup →
        (pairsOf l).Nodup ∧ ∀ a b : Endpoint, (a, b) ∈ pairsOf l → (b, a) ∉ pairsOf l)
    ∧ (∀ A B : Endpoint,
        (∀ s ∈ A.subnets, (parseCIDR s).isSome) →
        (∀ s ∈ B.subnets, (parseCIDR s).isSome) →
        (pairIssues A B = [] ↔ pairIssues B A = [])) := by
  refine ⟨allPairIssues_eq_pairsOf_bind, pairsOf_length, ?_, ?_⟩
  · intro l h
    exact ⟨pairsOf_nodup l h, fun a b => pairsOf_asymm l h a b⟩
  · intro A B hA hB
    by_cases hid : A.clusterID = B.clusterID
    · rw [pairIssues, if_pos hid, pairIssues, if_pos hid.symm]
      simp
    · rw [pairIssues_nil_iff A B hid hA hB,
        pairIssues_nil_iff B A (fun h => hid h.symm) hB hA]
      constructor
      · intro h s hsmem cs hcs t htmem ct hct
        rw [cidrOverlap_comm]
        exact h t htmem ct hct s hsmem cs hcs
      · intro h s hsmem cs hcs t htmem ct hct
        rw [cidrOverlap_comm]
        exact h t htmem ct hct s hsmem cs hcs

/-- Witness for C2 (amended) at three endpoints that share one clusterID:
three distinct pair evaluations, and a concrete order-independent empty
result for a disjoint valid pair. -/
theorem detector_pairs_once_witness :
    (pairsOf [Endpoint.mk "a" "X" [], Endpoint.mk "b" "X" [], Endpoint.mk "c" "X" []]).length
      = Nat.choose 3 2
    ∧ ((pairsOf [Endpoint.mk "a" "X" [], Endpoint.mk "b" "X" [], Endpoint.mk "c" "X" []]).Nodup
        ∧ ∀ a b : Endpoint,
          (a, b) ∈ pairsOf [Endpoint.mk "a" "X" [], Endpoint.mk "b" "X" [], Endpoint.mk "c" "X" []] →
          (b, a) ∉ pairsOf [Endpoint.mk "a" "X" [], Endpoint.mk "b" "X" [], Endpoint.mk "c" "X" []])
    ∧ (pairIssues (Endpoint.mk "s" "A" ["10.0.0.0/24"]) (Endpoint.mk "d" "B" ["10.1.0.0/24"]) = []
        ↔ pairIssues (Endpoint.mk "d" "B" ["10.1.0.0/24"]) (Endpoint.mk "s" "A" ["10.0.0.0/24"]) = []) :=
  ⟨detector_pairs_once_and_result_symmetric.2.1 _,
   detector_pairs_once_and_result_symmetric.2.2.1 _ (by decide),
   detector_pairs_once_and_result_symmetric.2.2.2 _ _
     (by intro s hs; fin_cases hs; rfl) (by intro s hs; fin_cases hs; rfl)⟩

/-- C7: a pair with equal clusterIDs yields exactly one DuplicateCluster
failure issue naming both endpoints and the shared id, independent of the
endpoints' subnets; and the detector always accumulates the issues of every
visited pair (never fail-fast). -/
theorem duplicate_cluster_single_issue :
    (∀ source dest : Endpoint, source.clusterID = dest.clusterID →
      pairIssues source dest
        = [Issue.duplicateCluster source.name dest.name source.clusterID])
    ∧ (∀ l : List Endpoint,
        allPairIssues l = (pairsOf l).flatMap fun p => pairIssues p.1 p.2) := by
  constructor
  · intro source dest h
    rw [pairIssues, if_pos h]
  · exact allPairIssues_eq_pairsOf_bind

/-- Witness for C7: two endpoints sharing a clusterID, with overlapping
subnets, still produce exactly the single duplicate-cluster issue. -/
theorem duplicate_cluster_single_issue_witness :
    pairIssues (Endpoint.mk "ep1" "east" ["10.0.0.0/16"])
        (Endpoint.mk "ep2" "east" ["10.0.0.0/16"])
      = [Issue.duplicateCluster "ep1" "ep2" "east"] :=
  duplicate_cluster_single_issue.1 _ _ rfl

/-- C10: a parse error from the intersection test is reported as a failure
issue carrying the dest cluster and the error, every visited pair's issues
reach the final accumulated list (the error aborts nothing), and any queued
issue forces the per-cluster overlap result to false. -/
theorem parse_error_reported :
    (∀ (source dest : Endpoint) (subnet e : String),
      source.clusterID ≠ dest.clusterID → subnet ∈ dest.subnets →
      isOverlapping source.subnets subnet = Except.error e →
      Issue.parseError dest.clusterID e ∈ pairIssues source dest)
    ∧ (∀ (l : List Endpoint) (p : Endpoint × Endpoint), p ∈ pairsOf l →
        ∀ i ∈ pairIssues p.1 p.2, i ∈ allPairIssues l)
    ∧ (∀ (l : List Endpoint) (i : Issue), i ∈ allPairIssues l →
        overlapCheckResult l = false) := by
  refine ⟨?_, ?_, ?_⟩
  · intro source dest subnet e hne hmem herr
    rw [pairIssues, if_neg hne]
    refine List.mem_flatMap.mpr ⟨subnet, hmem, ?_⟩
    rw [subnetIssues, herr]
    exact List.mem_singleton.mpr rfl
  · intro l p hp i hi
    rw [allPairIssues_eq_pairsOf_bind]
    exact List.mem_flatMap.mpr ⟨p, hp, hi⟩
  · intro l i hi
    rw [overlapCheckResult]
    rcases hl : allPairIssues l with _ | ⟨x, xs⟩
    · rw [hl] at hi
      exact absurd hi (List.not_mem_nil i)
    · rfl

/-- Witness for C10: an endpoint advertising an unparseable subnet produces
a parse-error issue against a later cluster, that issue reaches the full
run's issue list, and the overlap result is false. -/
theorem parse_error_reported_witness :
    Issue.parseError "west" "invalid CIDR address: bogus"
        ∈ pairIssues (Endpoint.mk "e1" "east" ["bogus"])
            (Endpoint.mk "e2" "west" ["10.0.0.0/24"])
    ∧ Issue.parseError "west" "invalid CIDR address: bogus"
        ∈ allPairIssues
            [Endpoint.mk "e1" "east" ["bogus"], Endpoint.mk "e2" "west" ["10.0.0.0/24"]]
    ∧ overlapCheckResult
        [Endpoint.mk "e1" "east" ["bogus"], Endpoint.mk "e2" "west" ["10.0.0.0/24"]] = false := by
  have h1 := parse_error_reported.1 (Endpoint.mk "e1" "east" ["bogus"])
    (Endpoint.mk "e2" "west" ["10.0.0.0/24"]) "10.0.0.0/24" "invalid CIDR address: bogus"
    (by decide) (List.mem_singleton.mpr rfl) rfl
  have h2 := parse_error_reported.2.1
    [Endpoint.mk "e1" "east" ["bogus"], Endpoint.mk "e2" "west" ["10.0.0.0/24"]]
    (Endpoint.mk "e1" "east" ["bogus"], Endpoint.mk "e2" "west" ["10.0.0.0/24"])
    (by rw [pairsOf]; exact List.mem_append_left _ (List.mem_singleton.mpr rfl)) _ h1
  exact ⟨h1, h2, parse_error_reported.2.2 _ _ h2⟩

/-- A cluster context as iterated by `validateSubmarinerDeployment`: whether
`getSubmarinerResource` finds the mesh resource, the boolean `checkPods`
would report, and the endpoint list the overlap check would see (`none` when
listing the endpoints fails). -/
structure ClusterCtx where
  name : String
  submarinerPresent : Bool
  podsOK : Bool
  endpoints : Option (List Endpoint)
deriving DecidableEq, Repr

/-- A per-cluster check actually evaluated during the run. -/
inductive CheckEvent where
  | pods (cluster : String)
  | overlaps (cluster : String)
deriving DecidableEq, Repr

/-- The boolean `checkOverlappingCIDRs` returns for one cluster: false when
the endpoint listing fails, otherwise true iff no failure was queued. -/
def clusterOverlapOK (c : ClusterCtx) : Bool :=
  match c.endpoints with
  | none => false
  | some eps => overlapCheckResult eps

/-- One iteration of the loop in `validateSubmarinerDeployment`: skip the
cluster when the mesh resource is absent, otherwise run the two statements
`validationStatus = validationStatus && check...` — Go's `&&` evaluates its
right operand only when the left operand is true, which the event list
records. -/
def clusterStep (vs : Bool) (c : ClusterCtx) : Bool × List CheckEvent :=
  if c.submarinerPresent = false then (vs, [])
  else
    let s1 := if vs then (c.podsOK, [CheckEvent.pods c.name]) else (false, [])
    let s2 := if s1.1 then (clusterOverlapOK c, [CheckEvent.overlaps c.name]) else (false, [])
    (s2.1, s1.2 ++ s2.2)

/-- The whole loop, threading `validationStatus` (initially true) and
accumulating the evaluated checks. -/
def validateFold (configs : List ClusterCtx) : Bool × List CheckEvent :=
  configs.foldl (fun acc c =>
    let r := clusterStep acc.1 c
    (r.1, acc.2 ++ r.2)) (true, [])

/-- `validateSubmarinerDeployment`'s observable outcome: the process exit
status (`os.Exit(1)` when the final status is false, 0 otherwise) and the
checks evaluated. -/
def validateSubmarinerDeployment (configs : List ClusterCtx) : Nat × List CheckEvent :=
  ((if (validateFold configs).1 then 0 else 1), (validateFold configs).2)

lemma clusterStep_fst (vs : Bool) (c : ClusterCtx) :
    (clusterStep vs c).1
      = (vs && (!c.submarinerPresent || (c.podsOK && clusterOverlapOK c))) := by
  rcases c with ⟨n, present, pods, eps⟩
  cases present <;> cases vs <;> cases pods <;>
    simp [clusterStep, clusterOverlapOK]

lemma clusterStep_false (c : ClusterCtx) : clusterStep false c = (false, []) := by
  rcases c with ⟨n, present, pods, eps⟩
  cases present <;> simp [clusterStep]

/-- The per-cluster predicate the exit status aggregates. -/
def clusterPasses (c : ClusterCtx) : Bool :=
  !c.submarinerPresent || (c.podsOK && clusterOverlapOK c)

lemma validateFold_go_fst (configs : List ClusterCtx) (vs : Bool) (evs : List CheckEvent) :
    (configs.foldl (fun acc c =>
      let r := clusterStep acc.1 c
      (r.1, acc.2 ++ r.2)) (vs, evs)).1 = (vs && configs.all clusterPasses) := by
  induction configs generalizing vs evs with
  | nil => simp
  | cons c rest ih =>
    rw [List.foldl_cons, List.all_cons]
    dsimp only
    rw [ih, clusterStep_fst, clusterPasses, Bool.and_assoc]

lemma validateFold_go_stuck (configs : List ClusterCtx) (evs : List CheckEvent) :
    configs.foldl (fun acc c =>
      let r := clusterStep acc.1 c
      (r.1, acc.2 ++ r.2)) (false, evs) = (false, evs) := by
  induction configs with
  | nil => rfl
  | cons c rest ih =>
    rw [List.foldl_cons]
    dsimp only
    rw [clusterStep_false]
    simpa using ih

/-- C1 counterexample: with two contexts both holding the mesh resource, the
first failing its pod check, the run never evaluates the overlap check of
the first cluster nor any check of the second — the `&&` short-circuits. -/
theorem validate_does_short_circuit :
    ¬ (∀ c ∈ [ClusterCtx.mk "a" true false (some []), ClusterCtx.mk "b" true true (some [])],
        c.submarinerPresent = true →
          CheckEvent.pods c.name
              ∈ (validateSubmarinerDeployment
                  [ClusterCtx.mk "a" true false (some []),
                   ClusterCtx.mk "b" true true (some [])]).2
          ∧ CheckEvent.overlaps c.name
              ∈ (validateSubmarinerDeployment
                  [ClusterCtx.mk "a" true false (some []),
                   ClusterCtx.mk "b" true true (some [])]).2) := by
  decide

/-- C1 amended: the exit status is 0 iff every context with the mesh resource
passes both its checks (the logical AND of the per-cluster results), but the
orchestrator does short-circuit: once the running status is false, no later
check of any cluster is evaluated. -/
theorem validate_exit_iff_all_pass :
    (∀ configs : List ClusterCtx,
      ((validateSubmarinerDeployment configs).1 = 0 ↔
        ∀ c ∈ configs, c.submarinerPresent = true →
          c.podsOK = true ∧ clusterOverlapOK c = true))
    ∧ (∀ pre post : List ClusterCtx, (validateFold pre).1 = false →
        (validateFold (pre ++ post)).2 = (validateFold pre).2) := by
  constructor
  · intro configs
    rw [validateSubmarinerDeployment]
    dsimp only
    rw [validateFold, validateFold_go_fst, Bool.true_and]
    by_cases hall : configs.all clusterPasses = true
    · rw [if_pos hall]
      refine iff_of_true rfl ?_
      rw [List.all_eq_true] at hall
      intro c hc hcp
      have := hall c hc
      rw [clusterPasses, hcp] at this
      simp only [Bool.not_true, Bool.false_or, Bool.and_eq_true] at this
      exact this
    · rw [if_neg hall]
      refine iff_of_false one_ne_zero ?_
      intro hforall
      apply hall
      rw [List.all_eq_true]
      intro c hc
      rw [clusterPasses]
      rcases hcp : c.submarinerPresent with _ | _
      · simp
      · obtain ⟨h1, h2⟩ := hforall c hc hcp
        simp [h1, h2]
  · intro pre post h
    rw [validateFold, List.foldl_append]
    have : pre.foldl (fun acc c =>
        let r := clusterStep acc.1 c
        (r.1, acc.2 ++ r.2)) (true, []) = validateFold pre := rfl
    rw [this]
    have hfold : validateFold pre = (false, (validateFold pre).2) := by
      rcases hv : validateFold pre with ⟨b, evs⟩
      rw [hv] at h
      cases b
      · rfl
      · simp at h
    rw [hfold, validateFold_go_stuck]

/-- Witness for C1 (amended): a fully healthy context exits 0, and appending
a second context after a failing one adds no evaluated check. -/
theorem validate_exit_iff_all_pass_witness :
    (validateSubmarinerDeployment [ClusterCtx.mk "a" true true (some [])]).1 = 0
    ∧ (validateFold ([ClusterCtx.mk "a" true false (some [])]
          ++ [ClusterCtx.mk "b" true true (some [])])).2
        = (validateFold [ClusterCtx.mk "a" true false (some [])]).2 :=
  ⟨(validate_exit_iff_all_pass.1 _).mpr (by decide),
   validate_exit_iff_all_pass.2 _ _ (by decide)⟩

/-- The fixed name of the globalnet registry record. -/
def GlobalCIDRConfigMapName : String := "submariner-globalnet-info"

/-- Key `globalnetEnabled`. -/
def GlobalnetStatusKey : String := "globalnetEnabled"

/-- Key `clusterinfo`. -/
def ClusterInfoKey : String := "clusterinfo"

/-- Key `globalnetCidrRange`. -/
def GlobalnetCidrRange : String := "globalnetCidrRange"

/-- Key `globalnetClusterSize`. -/
def GlobalnetClusterSize : String := "globalnetClusterSize"

/-- A hexadecimal digit as Go's JSON encoder writes it (lowercase). -/
def hexDigit (n : Nat) : Char :=
  if n < 10 then Char.ofNat (48 + n) else Char.ofNat (87 + n)

/-- One character of Go's json.Marshal output for a string: quote,
backslash, control characters and the HTML-escaped set become escapes. -/
def jsonEscapeChar (c : Char) : String :=
  if c = '"' then "\\\""
  else if c = '\\' then "\\\\"
  else if c = '\n' then "\\n"
  else if c = '\r' then "\\r"
  else if c = '\t' then "\\t"
  else if c.toNat < 32 || c = '<' || c = '>' || c = '&'
      || c.toNat = 8232 || c.toNat = 8233 then
    "\\u" ++ String.mk [hexDigit (c.toNat / 4096 % 16), hexDigit (c.toNat / 256 % 16),
      hexDigit (c.toNat / 16 % 16), hexDigit (c.toNat % 16)]
  else String.singleton c

/-- Go's `json.Marshal` applied to a string value: the JSON-quoted string
literal (marshalling a string never fails). -/
def jsonMarshalString (s : String) : String :=
  "\"" ++ (s.data.map jsonEscapeChar).foldl (· ++ ·) "" ++ "\""

/-- Embeds the `v1.ConfigMap` fields `NewGlobalnetConfigMap` populates. -/
structure GoConfigMap where
  name : String
  nspace : String
  labels : List (String × String)
  data : List (String × String)
deriving DecidableEq, Repr

/-- Embeds `NewGlobalnetConfigMap`: fixed name, `component` label, and a data
map whose fields depend on whether globalnet is enabled. -/
def NewGlobalnetConfigMap (globalnetEnabled : Bool) (defaultGlobalCidrRange : String)
    (defaultGlobalClusterSize : Nat) (nspace : String) : GoConfigMap :=
  let cidrRange := jsonMarshalString defaultGlobalCidrRange
  let data :=
    if globalnetEnabled then
      [(GlobalnetStatusKey, "true"),
       (GlobalnetCidrRange, cidrRange),
       (GlobalnetClusterSize, toString defaultGlobalClusterSize),
       (ClusterInfoKey, "[]")]
    else
      [(GlobalnetStatusKey, "false"),
       (ClusterInfoKey, "[]")]
  { name := GlobalCIDRConfigMapName
    nspace := nspace
    labels := [("component", "submariner-globalnet")]
    data := data }

/-- C9: for every combination of inputs the record has the fixed name,
`globalnetEnabled` is "true"/"false", `clusterinfo` is "[]", and the
JSON-quoted CIDR range and decimal cluster size are present exactly when
globalnet is enabled. -/
theorem newGlobalnetConfigMap_fields (globalnetEnabled : Bool)
    (defaultGlobalCidrRange : String) (defaultGlobalClusterSize : Nat) (nspace : String) :
    (NewGlobalnetConfigMap globalnetEnabled defaultGlobalCidrRange
        defaultGlobalClusterSize nspace).name = "submariner-globalnet-info"
    ∧ ((NewGlobalnetConfigMap globalnetEnabled defaultGlobalCidrRange
        defaultGlobalClusterSize nspace).data.lookup GlobalnetStatusKey
          = some (if globalnetEnabled then "true" else "false"))
    ∧ ((NewGlobalnetConfigMap globalnetEnabled defaultGlobalCidrRange
        defaultGlobalClusterSize nspace).data.lookup ClusterInfoKey = some "[]")
    ∧ ((NewGlobalnetConfigMap globalnetEnabled defaultGlobalCidrRange
        defaultGlobalClusterSize nspace).data.lookup GlobalnetCidrRange
          = if globalnetEnabled
              then some (jsonMarshalString defaultGlobalCidrRange) else none)
    ∧ ((NewGlobalnetConfigMap globalnetEnabled defaultGlobalCidrRange
        defaultGlobalClusterSize nspace).data.lookup GlobalnetClusterSize
          = if globalnetEnabled
              then some (toString defaultGlobalClusterSize) else none) := by
  cases globalnetEnabled <;>
    refine ⟨rfl, ?_, ?_, ?_, ?_⟩ <;>
      simp [NewGlobalnetConfigMap, List.lookup, GlobalnetStatusKey, ClusterInfoKey,
        GlobalnetCidrRange, GlobalnetClusterSize]

/-- The creation errors the backing store can surface. -/
inductive CreateErr where
  | alreadyExists
  | other (msg : String)
deriving DecidableEq, Repr

/-- Modelled from the spec: the backing store's create operation — at most
one record lives at the namespace; creating over an existing record fails
with an already-exists condition and leaves the record untouched, and a
transport fault (when injected) fails with another error, mutating
nothing. -/
def storeCreate (fault : Option String) (store : Option GoConfigMap) (cm : GoConfigMap) :
    Option GoConfigMap × Except CreateErr Unit :=
  match fault with
  | some m => (store, Except.error (CreateErr.other m))
  | none =>
    match store with
    | some existing => (some existing, Except.error CreateErr.alreadyExists)
    | none => (some cm, Except.ok ())

/-- Embeds `CreateGlobalnetConfigMap`: build the record, attempt to create
it, and treat a nil error or an already-exists error as success, returning
any other error. -/
def CreateGlobalnetConfigMap (fault : Option String) (store : Option GoConfigMap)
    (globalnetEnabled : Bool) (defaultGlobalCidrRange : String)
    (defaultGlobalClusterSize : Nat) (nspace : String) :
    Option GoConfigMap × Option CreateErr :=
  let cm := NewGlobalnetConfigMap globalnetEnabled defaultGlobalCidrRange
    defaultGlobalClusterSize nspace
  let res := storeCreate fault store cm
  match res.2 with
  | Except.ok _ => (res.1, none)
  | Except.error CreateErr.alreadyExists => (res.1, none)
  | Except.error e => (res.1, some e)

/-- C6: createIfAbsent is idempotent — an existing record makes the call
succeed without mutating the store; a second identical call after a first
succeeds and changes nothing; and any error other than already-exists is
returned. -/
theorem createGlobalnetConfigMap_idempotent :
    (∀ (store : Option GoConfigMap) (r : GoConfigMap) (en : Bool) (range nspace : String)
        (size : Nat), store = some r →
      CreateGlobalnetConfigMap none store en range size nspace = (some r, none))
    ∧ (∀ (store : Option GoConfigMap) (en : Bool) (range nspace : String) (size : Nat),
        CreateGlobalnetConfigMap none
            (CreateGlobalnetConfigMap none store en range size nspace).1 en range size nspace
          = ((CreateGlobalnetConfigMap none store en range size nspace).1, none))
    ∧ (∀ (store : Option GoConfigMap) (m : String) (en : Bool) (range nspace : String)
        (size : Nat),
        CreateGlobalnetConfigMap (some m) store en range size nspace
          = (store, some (CreateErr.other m))) := by
  refine ⟨?_, ?_, ?_⟩
  · rintro store r en range nspace size rfl
    rfl
  · intro store en range nspace size
    cases store <;> rfl
  · intro store m en range nspace size
    rfl

/-- Witness for C6: creating over an existing record succeeds and leaves the
record unchanged. -/
theorem createGlobalnetConfigMap_idempotent_witness :
    CreateGlobalnetConfigMap none (some (NewGlobalnetConfigMap false "" 0 "ns"))
        true "169.254.0.0/16" 8192 "ns"
      = (some (NewGlobalnetConfigMap false "" 0 "ns"), none) :=
  createGlobalnetConfigMap_idempotent.1 _ _ true "169.254.0.0/16" "ns" 8192 rfl

end Submariner

